import Mathlib

/-!
Verification development for the realistic human conversation agent
(`config/agent.py`).  The Python frame processors are shallowly embedded as
Lean functions: mutable dictionaries become association lists, random draws
become explicit parameters constrained by their documented ranges, and the
asyncio reversion timers become an explicit pending-deadline list processed
in time order.
-/

namespace Agent

/-! ### Python string-keyed dictionaries as association lists -/

/-- Python `d[k]` lookup: first binding wins (bindings are kept unique, matching a
Python `dict`). -/
def dictLookup {α : Type} : List (String × α) → String → Option α
  | [], _ => none
  | (k, v) :: rest, q => if k = q then some v else dictLookup rest q

/-- Python `d[k] = v` assignment: replace the binding in place, or append a fresh
binding at the end (Python dicts keep insertion order). -/
def dictSet {α : Type} : List (String × α) → String → α → List (String × α)
  | [], k, v => [(k, v)]
  | (k0, v0) :: rest, k, v =>
      if k0 = k then (k, v) :: rest else (k0, v0) :: dictSet rest k v

/-- Python `d.update(e)`: assign every binding of `e` into `d`, in `e`'s order. -/
def dictUpdate {α : Type} (d e : List (String × α)) : List (String × α) :=
  e.foldl (fun acc kv => dictSet acc kv.1 kv.2) d

/-- The keys of a dictionary, in order. -/
def dictKeys {α : Type} (d : List (String × α)) : List String :=
  d.map Prod.fst

/-- First-some choice on options. -/
def optionOrElse {α : Type} : Option α → Option α → Option α
  | some v, _ => some v
  | none, o => o

theorem dictKeys_nil {α : Type} : dictKeys ([] : List (String × α)) = [] := rfl

theorem dictKeys_cons {α : Type} (k : String) (v : α) (rest : List (String × α)) :
    dictKeys ((k, v) :: rest) = k :: dictKeys rest := rfl

theorem dictLookup_eq_none_iff {α : Type} (d : List (String × α)) (q : String) :
    dictLookup d q = none ↔ q ∉ dictKeys d := by
  induction d with
  | nil => simp [dictLookup, dictKeys]
  | cons kv rest ih =>
    obtain ⟨k, v⟩ := kv
    by_cases h : k = q
    · subst h
      simp [dictLookup, dictKeys_cons]
    · rw [dictKeys_cons]
      simp only [dictLookup, if_neg h, List.mem_cons, ih]
      constructor
      · rintro hnot (hqk | hq)
        · exact h hqk.symm
        · exact hnot hq
      · intro hnot hq
        exact hnot (Or.inr hq)

theorem dictLookup_dictSet_self {α : Type} (d : List (String × α)) (k : String) (v : α) :
    dictLookup (dictSet d k v) k = some v := by
  induction d with
  | nil => simp [dictSet, dictLookup]
  | cons kv rest ih =>
    obtain ⟨k0, v0⟩ := kv
    by_cases h : k0 = k
    · simp [dictSet, h, dictLookup]
    · simp [dictSet, h, dictLookup, ih]

theorem dictLookup_dictSet_ne {α : Type} (d : List (String × α)) (k q : String) (v : α)
    (h : k ≠ q) : dictLookup (dictSet d k v) q = dictLookup d q := by
  induction d with
  | nil => simp [dictSet, dictLookup, h]
  | cons kv rest ih =>
    obtain ⟨k0, v0⟩ := kv
    by_cases h0 : k0 = k
    · subst h0
      simp [dictSet, dictLookup, h]
    · simp [dictSet, h0, dictLookup, ih]

theorem mem_dictKeys_dictSet {α : Type} (d : List (String × α)) (k q : String) (v : α) :
    q ∈ dictKeys (dictSet d k v) ↔ q ∈ dictKeys d ∨ q = k := by
  induction d with
  | nil =>
    simp only [dictSet, dictKeys_cons, dictKeys_nil, List.mem_cons]
    simp
  | cons kv rest ih =>
    obtain ⟨k0, v0⟩ := kv
    by_cases h0 : k0 = k
    · subst h0
      have hset : dictSet ((k0, v0) :: rest) k0 v = (k0, v) :: rest := by
        simp [dictSet]
      rw [hset, dictKeys_cons, dictKeys_cons]
      simp only [List.mem_cons]
      tauto
    · simp only [dictSet, if_neg h0, dictKeys_cons, List.mem_cons, ih]
      tauto

theorem nodup_dictKeys_dictSet {α : Type} (d : List (String × α)) (k : String) (v : α)
    (h : (dictKeys d).Nodup) : (dictKeys (dictSet d k v)).Nodup := by
  induction d with
  | nil => simp [dictSet, dictKeys]
  | cons kv rest ih =>
    obtain ⟨k0, v0⟩ := kv
    rw [dictKeys_cons, List.nodup_cons] at h
    by_cases h0 : k0 = k
    · subst h0
      have hset : dictSet ((k0, v0) :: rest) k0 v = (k0, v) :: rest := by
        simp [dictSet]
      rw [hset, dictKeys_cons, List.nodup_cons]
      exact h
    · simp only [dictSet, if_neg h0]
      rw [dictKeys_cons, List.nodup_cons]
      refine ⟨fun hmem => ?_, ih h.2⟩
      rcases (mem_dictKeys_dictSet rest k k0 v).mp hmem with hk | hk
      · exact h.1 hk
      · exact h0 hk

theorem dictLookup_dictUpdate {α : Type} (e : List (String × α))
    (hnd : (dictKeys e).Nodup) (d : List (String × α)) (q : String) :
    dictLookup (dictUpdate d e) q = optionOrElse (dictLookup e q) (dictLookup d q) := by
  induction e generalizing d with
  | nil => simp [dictUpdate, dictLookup, optionOrElse]
  | cons kv rest ih =>
    obtain ⟨k0, v0⟩ := kv
    rw [dictKeys_cons, List.nodup_cons] at hnd
    have step : dictUpdate d ((k0, v0) :: rest) = dictUpdate (dictSet d k0 v0) rest := rfl
    rw [step, ih hnd.2]
    by_cases h : k0 = q
    · subst h
      have : dictLookup rest k0 = none :=
        (dictLookup_eq_none_iff rest k0).mpr hnd.1
      simp [dictLookup, this, optionOrElse, dictLookup_dictSet_self]
    · simp only [dictLookup, if_neg h]
      cases hr : dictLookup rest q with
      | some v => simp [optionOrElse]
      | none => simp [optionOrElse, dictLookup_dictSet_ne d k0 q v0 h]

/-! ### Audio frames and the ring buffer (`UserAudioCollector.process_frame`) -/

/-- An `InputAudioRawFrame`: raw byte payload length, channel count, sample
rate. -/
structure AudioFrame where
  audioLen : ℕ
  numChannels : ℕ
  sampleRate : ℕ
deriving DecidableEq

/-- The chunk duration `frame_duration = len(frame.audio) / 16 * frame.num_channels /
frame.sample_rate` (agent.py line 340). -/
def frameDuration (f : AudioFrame) : ℚ :=
  (f.audioLen : ℚ) / 16 * (f.numChannels : ℚ) / (f.sampleRate : ℚ)

/-- The retention window `self._start_secs = 0.2` (agent.py line 282). -/
def startSecs : ℚ := 1 / 5

/-- The `while buffer_duration > self._start_secs` eviction loop (agent.py
lines 342-344): the running counter `bd` starts at
`frame_duration * len(buffer)` and drops by the new frame's duration for
every chunk popped from the front. -/
def evictLoop (window d : ℚ) : ℚ → List AudioFrame → List AudioFrame
  | _, [] => []
  | bd, f :: rest => if window < bd then evictLoop window d (bd - d) rest else f :: rest

/-- The silent-audio branch of `process_frame` for `InputAudioRawFrame`
(agent.py lines 337-344): append, then evict from the front while the
computed buffer duration exceeds the window. -/
def pushSilentAudio (window : ℚ) (buf : List AudioFrame) (f : AudioFrame) :
    List AudioFrame :=
  let buf2 := buf ++ [f]
  evictLoop window (frameDuration f) (frameDuration f * (buf2.length : ℚ)) buf2

/-- The true cumulative duration of the retained chunks (what the spec calls
the "cumulative retained duration"). -/
def totalDuration (l : List AudioFrame) : ℚ :=
  (l.map frameDuration).sum

/-- State of `UserAudioCollector`: the speaking flag, the `_audio_frames`
buffer, and the audio messages committed to the LLM context so far (each
entry is the chunk list passed to `add_audio_frames_message`). -/
structure CollectorState where
  userSpeaking : Bool
  audioFrames : List AudioFrame
  committed : List (List AudioFrame)
deriving DecidableEq

/-- Outcome of the listening branch of `process_frame` on
`UserStoppedSpeakingFrame`. -/
inductive ListenDecision
  | full
  | ignore
  | partialTake (truncatePoint : ℕ)
deriving DecidableEq

/-- The listening decision (agent.py lines 310-328): `r1` is the
`random.randint(1, 100)` draw, `coin` the `random.random()` draw, and
`ridx` the `random.randint(1, max(1, len(self._audio_frames) - 1))` draw. -/
def decideListen (listeningScore r1 : ℕ) (coin : ℚ) (ridx : ℕ) : ListenDecision :=
  if r1 ≤ listeningScore * 10 then ListenDecision.full
  else if coin < 1 / 2 then ListenDecision.ignore
  else ListenDecision.partialTake ridx

/-- Handler for `UserStoppedSpeakingFrame` in `process_frame` (agent.py lines 306-332):
clear the speaking flag, then commit the full buffer, nothing, or a
truncated prefix.  None of the three branches clears `_audio_frames`. -/
def processUserStopped (listeningScore r1 : ℕ) (coin : ℚ) (ridx : ℕ)
    (s : CollectorState) : CollectorState :=
  match decideListen listeningScore r1 coin ridx with
  | ListenDecision.full =>
      { s with userSpeaking := false, committed := s.committed ++ [s.audioFrames] }
  | ListenDecision.ignore =>
      { s with userSpeaking := false }
  | ListenDecision.partialTake k =>
      { s with userSpeaking := false,
               committed := s.committed ++ [s.audioFrames.take k] }

/-- Handler for `InputAudioRawFrame` in `process_frame` (agent.py lines 334-344):
unbounded append while speaking, ring-buffer push while silent. -/
def processInputAudio (s : CollectorState) (f : AudioFrame) : CollectorState :=
  if s.userSpeaking then { s with audioFrames := s.audioFrames ++ [f] }
  else { s with audioFrames := pushSilentAudio startSecs s.audioFrames f }

/-- The eviction loop only ever drops chunks from the front: the result is a
tail (`List.drop`) of its input. -/
theorem evictLoop_eq_drop (window d : ℚ) :
    ∀ (l : List AudioFrame) (bd : ℚ), ∃ n, evictLoop window d bd l = l.drop n := by
  intro l
  induction l with
  | nil => intro bd; exact ⟨0, rfl⟩
  | cons f rest ih =>
    intro bd
    by_cases h : window < bd
    · obtain ⟨n, hn⟩ := ih (bd - d)
      exact ⟨n + 1, by simp [evictLoop, if_pos h, hn]⟩
    · exact ⟨0, by simp [evictLoop, if_neg h]⟩

/-- When the running counter equals the chunk count times `d`, the loop exits
with `d * (retained count) ≤ window`. -/
theorem evictLoop_counter_bound (window d : ℚ) (hw : 0 ≤ window) :
    ∀ (l : List AudioFrame) (bd : ℚ), bd = d * (l.length : ℚ) →
      d * ((evictLoop window d bd l).length : ℚ) ≤ window := by
  intro l
  induction l with
  | nil =>
    intro bd hbd
    simpa [evictLoop] using hw
  | cons f rest ih =>
    intro bd hbd
    by_cases h : window < bd
    · have hbd' : bd - d = d * (rest.length : ℚ) := by
        rw [hbd, List.length_cons]
        push_cast
        ring
      simpa [evictLoop, if_pos h] using ih (bd - d) hbd'
    · have hle : bd ≤ window := not_lt.mp h
      rw [evictLoop, if_neg h, ← hbd]
      exact hle

/-- If the initial counter is already within the window, the loop is the
identity. -/
theorem evictLoop_of_le (window d bd : ℚ) (h : ¬ window < bd) :
    ∀ l : List AudioFrame, evictLoop window d bd l = l := by
  intro l
  cases l with
  | nil => rfl
  | cons f rest => simp [evictLoop, if_neg h]

/-! ### `VolumeModulator`: emotional TTS settings with timed reversion -/

/-- A TTS settings dictionary (`tts_service._settings`). -/
abbrev TTSSettings := List (String × ℚ)

/-- The `settings` dictionary built in `VolumeModulator.process_frame`
(agent.py lines 364-385): a copy of the defaults with the per-emotion keys
assigned, in source order. -/
def emotionSettings (dflt : TTSSettings) (emotion : String) : TTSSettings :=
  if emotion = "angry" then
    dictSet (dictSet (dictSet dflt "volume" (3 / 2)) "speed" (6 / 5)) "pitch" (11 / 10)
  else if emotion = "excited" ∨ emotion = "overjoyed" then
    dictSet (dictSet dflt "speed" (13 / 10)) "pitch" (6 / 5)
  else if emotion = "frustrated" then
    dictSet (dictSet dflt "speed" (11 / 10)) "pitch" (19 / 20)
  else if emotion = "disappointed" then
    dictSet (dictSet dflt "speed" (17 / 20)) "pitch" (9 / 10)
  else if emotion = "surprised" then
    dictSet dflt "pitch" (6 / 5)
  else dflt

/-- Modulator state: the live `tts_service._settings` dictionary plus the
deadlines of every `_reset_settings_after_delay` task still pending. -/
structure ModState where
  active : TTSSettings
  pending : List ℚ
deriving DecidableEq

/-- Processing an `EmotionalReactionFrame` at time `t` (agent.py lines
361-392): `tts_service._settings.update(settings)` and
`asyncio.create_task(self._reset_settings_after_delay(3.0))`. -/
def applyEmotion (dflt : TTSSettings) (emotion : String) (t : ℚ)
    (s : ModState) : ModState :=
  { active := dictUpdate s.active (emotionSettings dflt emotion),
    pending := s.pending ++ [t + 3] }

/-- Expiry of pending reset tasks at time `now` (agent.py lines 396-400):
each due task sets `tts_service._settings = self.default_settings.copy()`
unconditionally. -/
def fireDueTimers (dflt : TTSSettings) (now : ℚ) (s : ModState) : ModState :=
  if ∃ dl ∈ s.pending, dl ≤ now then
    { active := dflt, pending := s.pending.filter (fun dl => decide (now < dl)) }
  else s

/-- Run a time-ordered list of `(time, emotion)` apply events, firing due
reset tasks before each event. -/
def runModulator (dflt : TTSSettings) : List (ℚ × String) → ModState → ModState
  | [], s => s
  | (t, e) :: rest, s =>
      runModulator dflt rest (applyEmotion dflt e t (fireDueTimers dflt t s))

/-- The settings visible at time `now` after the given apply events. -/
def observeSettings (dflt : TTSSettings) (events : List (ℚ × String))
    (s0 : ModState) (now : ℚ) : TTSSettings :=
  (fireDueTimers dflt now (runModulator dflt events s0)).active

/-! ### `RealisticHumanBehaviorModifier` on `UserStoppedSpeakingFrame` -/

/-- The awaited operations of the handler, in program order. -/
inductive BehaviorAction
  | sleepInline (lo hi : ℚ)
  | pushTalkOutOfTurn
deriving DecidableEq

/-- Handler for `UserStoppedSpeakingFrame` in `process_frame` (agent.py lines 186-192):
when the `random.randint(1, 100)` draw `r1` passes the probability gate, the
coroutine awaits `asyncio.sleep(random.uniform(0.5, 2.0))` inline and only
then pushes the `TalkOutOfTurnFrame`. -/
def behaviorOnUserStopped (talkProb r1 : ℕ) : List BehaviorAction :=
  if r1 ≤ talkProb then
    [BehaviorAction.sleepInline (1 / 2) 2, BehaviorAction.pushTalkOutOfTurn]
  else []

/-! ### `TranscriptionContextFixup`: transcript reconciliation -/

/-- A part of a context message: an optional inline-data mime type and an
optional text. -/
structure MsgPart where
  inlineDataMime : Option String
  text : Option String
deriving DecidableEq

/-- A context message (`glm.Content`): role and parts. -/
structure Message where
  role : String
  parts : List MsgPart
deriving DecidableEq

/-- The predicate `is_user_audio_message` (agent.py lines 509-515).  `none` models the
`IndexError` from `message.parts[-1]` on an empty parts list. -/
def isUserAudioMessage (m : Message) : Option Bool :=
  match m.parts.getLast? with
  | none => none
  | some lastPart =>
      some (m.role == "user" && lastPart.inlineDataMime == some "audio/wav")

/-- The in-place rewrite of the matched audio turn (agent.py lines 526-528):
the last part's `inline_data` is cleared and its `text` set to the
transcript. -/
def swapAudioPart (m : Message) (transcript : String) : Message :=
  { m with parts := m.parts.dropLast ++ [⟨none, some transcript⟩] }

/-- The method `swap_user_audio` (agent.py lines 517-528) on a context message list.
`none` models a Python `IndexError` (`messages[-2]` on a short context or
`parts[-1]` on an empty parts list). -/
def swapUserAudio (transcript : String) (msgs : List Message) :
    Option (List Message) :=
  if transcript == "" then some msgs
  else if msgs.length < 2 then none
  else
    (msgs[msgs.length - 2]?).bind fun m2 =>
      (isUserAudioMessage m2).bind fun b2 =>
        if b2 then
          some (msgs.set (msgs.length - 2) (swapAudioPart m2 transcript))
        else
          (msgs[msgs.length - 1]?).bind fun m1 =>
            (isUserAudioMessage m1).bind fun b1 =>
              if b1 then
                some (msgs.set (msgs.length - 1) (swapAudioPart m1 transcript))
              else some msgs

/-- A user turn whose single part is an audio reference awaiting
transcription. -/
def audioRefMsg : Message := ⟨"user", [⟨some "audio/wav", none⟩]⟩

/-- A system directive turn. -/
def directiveMsg : Message := ⟨"system", [⟨none, some "Respond naturally to the user."⟩]⟩

/-! ### `RealisticHumanAgent.__init__`: personality configuration -/

/-- The dictionary `DEFAULT_CONFIG["personality"]` (agent.py lines 67-74). -/
def defaultPersonality : List (String × ℕ) :=
  [("patience", 5), ("talkativeness", 7), ("interruption", 4),
   ("listening", 6), ("agreeableness", 5), ("emotionality", 6)]

/-- The six trait keys read by `formatted_config` (agent.py lines 573-581). -/
def traitNames : List String :=
  ["patience", "talkativeness", "interruption", "listening",
   "agreeableness", "emotionality"]

/-- The trait-by-trait merge loop (agent.py lines 561-564): assign each
provided trait into the current personality dictionary, but only when the
key is already present there. -/
def mergePersonality (base upd : List (String × ℕ)) : List (String × ℕ) :=
  upd.foldl
    (fun acc kv =>
      if (dictLookup acc kv.1).isSome then dictSet acc kv.1 kv.2 else acc)
    base

/-- The value of `self.config["personality"]` after `__init__` finishes its merging
(agent.py lines 556-564): `self.config.update(config)` replaces the default
personality dictionary wholesale with the provided one, so the subsequent
merge loop runs with the provided dictionary as both base and update. -/
def agentPersonality (userPersonality : Option (List (String × ℕ))) :
    List (String × ℕ) :=
  match userPersonality with
  | none => defaultPersonality
  | some p => mergePersonality p p

/-- Reading one trait key while building `formatted_config`; `none` models
the `KeyError` on a missing key. -/
def readTrait (pers : List (String × ℕ)) (n : String) (acc : Option (List ℕ)) :
    Option (List ℕ) :=
  match dictLookup pers n, acc with
  | some v, some l => some (v :: l)
  | _, _ => none

/-- Building `formatted_config` (agent.py lines 573-581): reading the six
trait keys in order. -/
def formattedConfigTraits (pers : List (String × ℕ)) : Option (List ℕ) :=
  traitNames.foldr (readTrait pers) (some [])

/-- A 0.18-second chunk (16 kHz mono): 46080 / 16 / 16000 = 0.18. -/
def frameA : AudioFrame := ⟨46080, 1, 16000⟩

/-- A 0.01-second chunk (16 kHz mono): 2560 / 16 / 16000 = 0.01. -/
def frameB : AudioFrame := ⟨2560, 1, 16000⟩

/-- A degenerate zero-duration chunk: empty audio payload. -/
def zeroFrame : AudioFrame := ⟨0, 1, 16000⟩

/-! ### Claim theorems -/

/-- Claim C1, counterexample: four silent pushes (one 0.18 s chunk followed
by three 0.01 s chunks) leave a buffer whose true cumulative retained
duration is 0.21 s, exceeding the 0.2 s window, because the eviction loop
measures the buffer as (newest chunk duration) x (chunk count). -/
theorem c1_counterexample :
    startSecs <
      totalDuration
        (processInputAudio
          (processInputAudio
            (processInputAudio (processInputAudio ⟨false, [], []⟩ frameA) frameB)
            frameB)
          frameB).audioFrames := by
  norm_num [processInputAudio, pushSilentAudio, evictLoop, totalDuration,
    frameDuration, startSecs, frameA, frameB]

/-- Claim C1, amended: after every silent push, the quantity the code
actually bounds — the newest chunk's duration times the retained chunk
count — is at most the window, and eviction removes oldest chunks first
(the retained buffer is a tail of the previous buffer plus the new chunk). -/
theorem c1_amended (s : CollectorState) (f : AudioFrame)
    (h : s.userSpeaking = false) :
    frameDuration f * (((processInputAudio s f).audioFrames.length : ℕ) : ℚ)
        ≤ startSecs ∧
    ∃ n, (processInputAudio s f).audioFrames = (s.audioFrames ++ [f]).drop n := by
  have hpush : (processInputAudio s f).audioFrames
      = pushSilentAudio startSecs s.audioFrames f := by
    simp [processInputAudio, h]
  constructor
  · rw [hpush]
    exact evictLoop_counter_bound startSecs (frameDuration f) (by norm_num [startSecs])
      (s.audioFrames ++ [f]) _ rfl
  · rw [hpush]
    exact evictLoop_eq_drop startSecs (frameDuration f) (s.audioFrames ++ [f]) _

/-- Claim C1, amended, witness at a concrete silent push. -/
theorem c1_amended_witness :
    frameDuration frameA
        * (((processInputAudio ⟨false, [], []⟩ frameA).audioFrames.length : ℕ) : ℚ)
        ≤ startSecs ∧
    ∃ n, (processInputAudio ⟨false, [], []⟩ frameA).audioFrames
        = (([] : List AudioFrame) ++ [frameA]).drop n :=
  c1_amended ⟨false, [], []⟩ frameA rfl

/-- Claim C5, counterexample: a full-listening commit (listening score 10,
draw 5) appends the buffered chunks to the context but leaves
`_audio_frames` untouched — the retained chunk sequence is `[frameA]`, not
empty. -/
theorem c5_counterexample :
    (processUserStopped 10 5 0 1 ⟨true, [frameA], []⟩).committed = [[frameA]] ∧
    (processUserStopped 10 5 0 1 ⟨true, [frameA], []⟩).audioFrames = [frameA] ∧
    [frameA] ≠ ([] : List AudioFrame) := by
  decide

/-- Claim C5, amended: committing a finalized turn never clears the audio
buffer — `process_frame` on `UserStoppedSpeakingFrame` leaves
`_audio_frames` exactly as it was, on all three listening paths. -/
theorem c5_amended (listeningScore r1 : ℕ) (coin : ℚ) (ridx : ℕ)
    (s : CollectorState) :
    (processUserStopped listeningScore r1 coin ridx s).audioFrames
      = s.audioFrames := by
  unfold processUserStopped
  cases decideListen listeningScore r1 coin ridx <;> rfl

/-- Claim C7, counterexample: pushing a zero-duration chunk while silent is
not a no-op — the chunk is appended and retained. -/
theorem c7_counterexample :
    frameDuration zeroFrame = 0 ∧
    processInputAudio ⟨false, [frameA], []⟩ zeroFrame
      = ⟨false, [frameA, zeroFrame], []⟩ := by
  constructor
  · norm_num [frameDuration, zeroFrame]
  · norm_num [processInputAudio, pushSilentAudio, evictLoop, frameDuration,
      zeroFrame, frameA, startSecs]

/-- Claim C7, amended: pushing a zero-duration chunk while silent raises no
error and evicts nothing, but the chunk is appended: the buffer becomes the
old buffer plus the new chunk. -/
theorem c7_amended (buf : List AudioFrame) (f : AudioFrame)
    (hd : frameDuration f = 0) :
    pushSilentAudio startSecs buf f = buf ++ [f] := by
  unfold pushSilentAudio
  rw [hd]
  simpa using evictLoop_of_le startSecs 0 (0 * ((buf ++ [f]).length : ℚ))
    (by norm_num [startSecs]) (buf ++ [f])

/-- Claim C7, amended, witness. -/
theorem c7_amended_witness :
    pushSilentAudio startSecs [frameA] zeroFrame = [frameA] ++ [zeroFrame] :=
  c7_amended [frameA] zeroFrame (by norm_num [frameDuration, zeroFrame])

/-- Claim C4, counterexample: with listening trait 0 and a single buffered
chunk, the only legal truncate draw is `ridx = 1` (the code clamps the
range to `[1, max(1, 1 - 1)] = [1, 1]`), and the Partial path then forwards
`take 1` of a one-chunk buffer — the entire buffer, not a strict prefix. -/
theorem c4_counterexample :
    decideListen 0 50 (3 / 4) 1 = ListenDecision.partialTake 1 ∧
    (1 ≤ 1 ∧ 1 ≤ max 1 ([frameA].length - 1)) ∧
    (processUserStopped 0 50 (3 / 4) 1 ⟨false, [frameA], []⟩).committed
      = [[frameA]] := by
  refine ⟨?_, by decide, ?_⟩
  · norm_num [decideListen]
  · norm_num [processUserStopped, decideListen]

/-- Claim C4, amended: with listening trait 0 the Full path is unreachable,
every committed Partial turn is a prefix of the buffer, and it is a strict
prefix whenever at least two chunks are buffered; with one (or zero)
buffered chunk the clamped draw forces `ridx` so that the whole buffer is
forwarded. -/
theorem c4_amended (r1 ridx : ℕ) (coin : ℚ) (buf : List AudioFrame)
    (hr1 : 1 ≤ r1) (hi1 : 1 ≤ ridx) (hi2 : ridx ≤ max 1 (buf.length - 1)) :
    decideListen 0 r1 coin ridx ≠ ListenDecision.full ∧
    buf.take ridx ++ buf.drop ridx = buf ∧
    (2 ≤ buf.length → buf.take ridx ≠ buf) := by
  refine ⟨?_, List.take_append_drop ridx buf, ?_⟩
  · unfold decideListen
    rw [if_neg (by omega)]
    by_cases hc : coin < 1 / 2
    · rw [if_pos hc]
      intro h
      exact ListenDecision.noConfusion h
    · rw [if_neg hc]
      intro h
      exact ListenDecision.noConfusion h
  · intro hlen heq
    have hridx : ridx ≤ buf.length - 1 := by
      rwa [max_eq_right (by omega : 1 ≤ buf.length - 1)] at hi2
    have hlt : ridx < buf.length := by omega
    have : (buf.take ridx).length = buf.length := by rw [heq]
    rw [List.length_take] at this
    omega

/-- Claim C4, amended, witness. -/
theorem c4_amended_witness :
    decideListen 0 1 0 1 ≠ ListenDecision.full ∧
    [frameA, frameB].take 1 ++ [frameA, frameB].drop 1 = [frameA, frameB] ∧
    (2 ≤ [frameA, frameB].length → [frameA, frameB].take 1 ≠ [frameA, frameB]) :=
  c4_amended 1 1 0 [frameA, frameB] (by decide) (by decide) (by decide)

/-- Claim C8, counterexample: with the default talk-out-of-turn probability
(20) and a passing draw (10), the handler's awaited operations are exactly
an inline `asyncio.sleep(random.uniform(0.5, 2.0))` followed by the frame
push — the delay is awaited in `process_frame` itself, so the caller does
wait for it. -/
theorem c8_counterexample :
    behaviorOnUserStopped 20 10
      = [BehaviorAction.sleepInline (1 / 2) 2, BehaviorAction.pushTalkOutOfTurn] ∧
    BehaviorAction.sleepInline (1 / 2) 2 ∈ behaviorOnUserStopped 20 10 := by
  constructor
  · norm_num [behaviorOnUserStopped]
  · norm_num [behaviorOnUserStopped]

/-- Claim C8, amended: whenever the probability gate passes, the random
0.5-2.0 s delay is awaited inline, before the `TalkOutOfTurnFrame` push and
before `process_frame` returns; the handler blocks the caller for the
duration of the delay rather than scheduling the emission asynchronously. -/
theorem c8_amended (talkProb r1 : ℕ) (h : r1 ≤ talkProb) :
    behaviorOnUserStopped talkProb r1
      = [BehaviorAction.sleepInline (1 / 2) 2, BehaviorAction.pushTalkOutOfTurn] ∧
    (behaviorOnUserStopped talkProb r1).head?
      = some (BehaviorAction.sleepInline (1 / 2) 2) := by
  unfold behaviorOnUserStopped
  rw [if_pos h]
  exact ⟨rfl, rfl⟩

/-- Claim C8, amended, witness. -/
theorem c8_amended_witness :
    behaviorOnUserStopped 20 10
      = [BehaviorAction.sleepInline (1 / 2) 2, BehaviorAction.pushTalkOutOfTurn] ∧
    (behaviorOnUserStopped 20 10).head?
      = some (BehaviorAction.sleepInline (1 / 2) 2) :=
  c8_amended 20 10 (by decide)

theorem emotionSettings_angry (dflt : TTSSettings) :
    emotionSettings dflt "angry"
      = dictSet (dictSet (dictSet dflt "volume" (3 / 2)) "speed" (6 / 5))
          "pitch" (11 / 10) := by
  unfold emotionSettings
  rw [if_pos rfl]

theorem emotionSettings_surprised (dflt : TTSSettings) :
    emotionSettings dflt "surprised" = dictSet dflt "pitch" (6 / 5) := by
  unfold emotionSettings
  rw [if_neg (by decide), if_neg (by decide), if_neg (by decide),
    if_neg (by decide), if_pos rfl]

/-- A baseline settings dictionary used for concrete witnesses. -/
def baselineSettings : TTSSettings :=
  [("volume", 1), ("speed", 1), ("pitch", 1)]

/-- Claim C2: processing an `EmotionalReactionFrame` with emotion "angry"
makes the active settings read volume 1.5, speed 1.2, pitch 1.1, any other
key keeps its default value, and once the armed 3.0 s reset task expires
with no further apply the active settings equal the default baseline
exactly.  The key-subset hypothesis reflects the program invariant that the
live settings dictionary only ever holds default keys plus the keys these
same handlers write. -/
theorem c2_angry_settings (dflt active : TTSSettings) (pend : List ℚ)
    (t now : ℚ) (k : String)
    (hnd : (dictKeys dflt).Nodup)
    (hsub : ∀ q ∈ dictKeys active,
      q ∈ dictKeys dflt ∨ q = "volume" ∨ q = "speed" ∨ q = "pitch")
    (hnow : t + 3 ≤ now)
    (hk1 : k ≠ "volume") (hk2 : k ≠ "speed") (hk3 : k ≠ "pitch") :
    dictLookup (applyEmotion dflt "angry" t ⟨active, pend⟩).active "volume"
        = some (3 / 2) ∧
    dictLookup (applyEmotion dflt "angry" t ⟨active, pend⟩).active "speed"
        = some (6 / 5) ∧
    dictLookup (applyEmotion dflt "angry" t ⟨active, pend⟩).active "pitch"
        = some (11 / 10) ∧
    dictLookup (applyEmotion dflt "angry" t ⟨active, pend⟩).active k
        = dictLookup dflt k ∧
    (fireDueTimers dflt now (applyEmotion dflt "angry" t ⟨active, pend⟩)).active
        = dflt := by
  have hactive : (applyEmotion dflt "angry" t ⟨active, pend⟩).active
      = dictUpdate active (emotionSettings dflt "angry") := rfl
  have hndS : (dictKeys (emotionSettings dflt "angry")).Nodup := by
    rw [emotionSettings_angry]
    exact nodup_dictKeys_dictSet _ _ _
      (nodup_dictKeys_dictSet _ _ _ (nodup_dictKeys_dictSet _ _ _ hnd))
  have hupd : ∀ q, dictLookup (applyEmotion dflt "angry" t ⟨active, pend⟩).active q
      = optionOrElse (dictLookup (emotionSettings dflt "angry") q)
          (dictLookup active q) := by
    intro q
    rw [hactive]
    exact dictLookup_dictUpdate _ hndS active q
  refine ⟨?_, ?_, ?_, ?_, ?_⟩
  · rw [hupd, emotionSettings_angry,
      dictLookup_dictSet_ne _ _ _ _ (by decide : "pitch" ≠ "volume"),
      dictLookup_dictSet_ne _ _ _ _ (by decide : "speed" ≠ "volume"),
      dictLookup_dictSet_self]
    rfl
  · rw [hupd, emotionSettings_angry,
      dictLookup_dictSet_ne _ _ _ _ (by decide : "pitch" ≠ "speed"),
      dictLookup_dictSet_self]
    rfl
  · rw [hupd, emotionSettings_angry, dictLookup_dictSet_self]
    rfl
  · rw [hupd, emotionSettings_angry,
      dictLookup_dictSet_ne _ _ _ _ (Ne.symm hk3),
      dictLookup_dictSet_ne _ _ _ _ (Ne.symm hk2),
      dictLookup_dictSet_ne _ _ _ _ (Ne.symm hk1)]
    cases hdk : dictLookup dflt k with
    | some v => rfl
    | none =>
      have hka : dictLookup active k = none := by
        rw [dictLookup_eq_none_iff]
        intro hmem
        rcases hsub k hmem with hin | h1 | h2 | h3
        · exact (dictLookup_eq_none_iff dflt k).mp hdk hin
        · exact hk1 h1
        · exact hk2 h2
        · exact hk3 h3
      rw [hka]
      rfl
  · unfold fireDueTimers
    rw [if_pos ⟨t + 3, by simp [applyEmotion], hnow⟩]

/-- Claim C2, witness at the concrete baseline. -/
theorem c2_angry_settings_witness :
    dictLookup (applyEmotion baselineSettings "angry" 0
        ⟨baselineSettings, []⟩).active "volume" = some (3 / 2) ∧
    dictLookup (applyEmotion baselineSettings "angry" 0
        ⟨baselineSettings, []⟩).active "speed" = some (6 / 5) ∧
    dictLookup (applyEmotion baselineSettings "angry" 0
        ⟨baselineSettings, []⟩).active "pitch" = some (11 / 10) ∧
    dictLookup (applyEmotion baselineSettings "angry" 0
        ⟨baselineSettings, []⟩).active "language"
        = dictLookup baselineSettings "language" ∧
    (fireDueTimers baselineSettings 3 (applyEmotion baselineSettings "angry" 0
        ⟨baselineSettings, []⟩)).active = baselineSettings :=
  c2_angry_settings baselineSettings baselineSettings [] 0 3 "language"
    (by decide) (by decide) (by norm_num)
    (by decide) (by decide) (by decide)

/-- Claim C6: reset tasks are independent and a fired reset always restores
the baseline: with an "angry" apply at `t1` and a "surprised" apply at
`t2 < t1 + 3`, the second override is observably active at `u < t1 + 3`,
yet at any `now` with `t1 + 3 ≤ now < t2 + 3` the earliest-armed task has
fired and the settings equal the baseline — the later override is cut short
by the earlier timer. -/
theorem c6_earliest_timer_wins (dflt a0 : TTSSettings) (t1 t2 u now : ℚ)
    (hnd : (dictKeys dflt).Nodup)
    (h12 : t1 < t2) (h2w : t2 < t1 + 3)
    (hu1 : t2 ≤ u) (hu2 : u < t1 + 3)
    (hnow1 : t1 + 3 ≤ now) (hnow2 : now < t2 + 3) :
    dictLookup
        (observeSettings dflt [(t1, "angry"), (t2, "surprised")] ⟨a0, []⟩ u)
        "pitch" = some (6 / 5) ∧
    observeSettings dflt [(t1, "angry"), (t2, "surprised")] ⟨a0, []⟩ now
      = dflt := by
  have hfire1 : fireDueTimers dflt t1 ⟨a0, []⟩ = ⟨a0, []⟩ := by
    unfold fireDueTimers
    rw [if_neg]
    simp
  have hfire2 : fireDueTimers dflt t2 (applyEmotion dflt "angry" t1 ⟨a0, []⟩)
      = applyEmotion dflt "angry" t1 ⟨a0, []⟩ := by
    unfold fireDueTimers
    rw [if_neg]
    simp only [applyEmotion, List.nil_append, List.mem_singleton]
    rintro ⟨dl, hdl, hle⟩
    rw [hdl] at hle
    linarith
  have hrun : runModulator dflt [(t1, "angry"), (t2, "surprised")] ⟨a0, []⟩
      = applyEmotion dflt "surprised" t2 (applyEmotion dflt "angry" t1 ⟨a0, []⟩) := by
    simp only [runModulator]
    rw [hfire1, hfire2]
  have hpend : (applyEmotion dflt "surprised" t2
      (applyEmotion dflt "angry" t1 ⟨a0, []⟩)).pending = [t1 + 3, t2 + 3] := by
    simp [applyEmotion]
  constructor
  · unfold observeSettings
    rw [hrun]
    unfold fireDueTimers
    rw [if_neg]
    · have hactive : (applyEmotion dflt "surprised" t2
          (applyEmotion dflt "angry" t1 ⟨a0, []⟩)).active
          = dictUpdate (applyEmotion dflt "angry" t1 ⟨a0, []⟩).active
              (emotionSettings dflt "surprised") := rfl
      rw [hactive, dictLookup_dictUpdate _
          (by rw [emotionSettings_surprised]; exact nodup_dictKeys_dictSet _ _ _ hnd),
        emotionSettings_surprised, dictLookup_dictSet_self]
      rfl
    · rw [hpend]
      rintro ⟨dl, hdl, hle⟩
      simp only [List.mem_cons, List.not_mem_nil, or_false] at hdl
      rcases hdl with hdl | hdl <;> rw [hdl] at hle <;> linarith
  · unfold observeSettings
    rw [hrun]
    unfold fireDueTimers
    rw [if_pos ⟨t1 + 3, by rw [hpend]; exact List.mem_cons_self _ _, hnow1⟩]

/-- Claim C6, witness: applies at times 0 and 2, observed at 2 and 3. -/
theorem c6_earliest_timer_wins_witness :
    dictLookup
        (observeSettings baselineSettings [(0, "angry"), (2, "surprised")]
          ⟨baselineSettings, []⟩ 2) "pitch" = some (6 / 5) ∧
    observeSettings baselineSettings [(0, "angry"), (2, "surprised")]
        ⟨baselineSettings, []⟩ 3 = baselineSettings :=
  c6_earliest_timer_wins baselineSettings baselineSettings 0 2 2 3
    (by decide) (by norm_num) (by norm_num) (by norm_num) (by norm_num)
    (by norm_num) (by norm_num)

/-- Claim C3, counterexample: with the empty finalized transcript and a
context whose second-to-last message is a user audio-reference turn, the
guard `if not self._transcript: return` makes the reconciliation a no-op —
the audio turn is not rewritten, contradicting the claim for this
transcript. -/
theorem c3_counterexample :
    isUserAudioMessage audioRefMsg = some true ∧
    swapUserAudio "" [audioRefMsg, directiveMsg]
      = some [audioRefMsg, directiveMsg] ∧
    (swapAudioPart audioRefMsg "").parts ≠ audioRefMsg.parts := by
  refine ⟨by decide, rfl, by decide⟩

/-- Claim C3, amended: for every NONEMPTY finalized transcript and a context
of at least two messages, the second-to-last user audio turn is rewritten in
place; otherwise the last one is, if it matches; otherwise the context is
unchanged — and the message count is always preserved.  The empty
transcript is unconditionally a no-op. -/
theorem c3_amended (t : String) (msgs : List Message) (m2 m1 : Message)
    (b2 b1 : Bool)
    (ht : t ≠ "") (hlen : 2 ≤ msgs.length)
    (h2 : msgs[msgs.length - 2]? = some m2)
    (h1 : msgs[msgs.length - 1]? = some m1)
    (hb2 : isUserAudioMessage m2 = some b2)
    (hb1 : isUserAudioMessage m1 = some b1) :
    swapUserAudio t msgs
      = some (if b2 then msgs.set (msgs.length - 2) (swapAudioPart m2 t)
          else if b1 then msgs.set (msgs.length - 1) (swapAudioPart m1 t)
          else msgs) ∧
    Option.map List.length (swapUserAudio t msgs) = some msgs.length := by
  have hbeq : (t == "") = false := beq_eq_false_iff_ne.mpr ht
  have hmain : swapUserAudio t msgs
      = some (if b2 then msgs.set (msgs.length - 2) (swapAudioPart m2 t)
          else if b1 then msgs.set (msgs.length - 1) (swapAudioPart m1 t)
          else msgs) := by
    unfold swapUserAudio
    rw [if_neg (by simp [hbeq]), if_neg (Nat.not_lt.mpr hlen), h2,
      Option.some_bind, hb2, Option.some_bind]
    cases b2 with
    | true => simp
    | false =>
      simp only [Bool.false_eq_true, if_false]
      rw [h1, Option.some_bind, hb1, Option.some_bind]
      cases b1 with
      | true => simp
      | false => simp
  refine ⟨hmain, ?_⟩
  rw [hmain]
  split_ifs <;> simp [List.length_set]

/-- Claim C3, amended, witness: a nonempty transcript rewrites the
second-to-last (audio) turn in place. -/
theorem c3_amended_witness :
    swapUserAudio "hello" [audioRefMsg, directiveMsg]
      = some [swapAudioPart audioRefMsg "hello", directiveMsg] ∧
    Option.map List.length (swapUserAudio "hello" [audioRefMsg, directiveMsg])
      = some 2 := by
  have h := c3_amended "hello" [audioRefMsg, directiveMsg] audioRefMsg
    directiveMsg true false (by decide) (by decide) (by decide) (by decide)
    (by decide) (by decide)
  simpa using h

/-- Claim C9: the reconciler's no-op guard fires only on the empty string —
the sentinel "EMPTY" is a nonempty string, so the swap still executes and
leaves the literal text "EMPTY" in the matched user audio turn, while the
empty transcript is always a no-op. -/
theorem c9_sentinel_swap (msgs : List Message) (m2 : Message)
    (hlen : 2 ≤ msgs.length)
    (h2 : msgs[msgs.length - 2]? = some m2)
    (hb2 : isUserAudioMessage m2 = some true) :
    swapUserAudio "EMPTY" msgs
      = some (msgs.set (msgs.length - 2) (swapAudioPart m2 "EMPTY")) ∧
    (swapAudioPart m2 "EMPTY").parts.getLast? = some ⟨none, some "EMPTY"⟩ ∧
    ∀ ms : List Message, swapUserAudio "" ms = some ms := by
  refine ⟨?_, ?_, fun ms => rfl⟩
  · unfold swapUserAudio
    rw [if_neg (by decide), if_neg (Nat.not_lt.mpr hlen), h2,
      Option.some_bind, hb2, Option.some_bind]
    simp
  · unfold swapAudioPart
    simp

/-- Claim C9, witness. -/
theorem c9_sentinel_swap_witness :
    swapUserAudio "EMPTY" [audioRefMsg, directiveMsg]
      = some ([audioRefMsg, directiveMsg].set
          ([audioRefMsg, directiveMsg].length - 2)
          (swapAudioPart audioRefMsg "EMPTY")) ∧
    (swapAudioPart audioRefMsg "EMPTY").parts.getLast?
      = some ⟨none, some "EMPTY"⟩ ∧
    ∀ ms : List Message, swapUserAudio "" ms = some ms :=
  c9_sentinel_swap [audioRefMsg, directiveMsg] audioRefMsg (by decide)
    (by decide) (by decide)

theorem readTrait_none (pers : List (String × ℕ)) (n : String)
    (acc : Option (List ℕ)) (h : dictLookup pers n = none) :
    readTrait pers n acc = none := by
  unfold readTrait
  rw [h]

theorem readTrait_acc_none (pers : List (String × ℕ)) (n : String) :
    readTrait pers n none = none := by
  unfold readTrait
  cases dictLookup pers n <;> rfl

theorem foldr_readTrait_eq_none (pers : List (String × ℕ)) (t : String)
    (names : List String) (hmem : t ∈ names)
    (hmiss : dictLookup pers t = none) :
    names.foldr (readTrait pers) (some []) = none := by
  induction names with
  | nil => exact absurd hmem (List.not_mem_nil t)
  | cons n rest ih =>
    rw [List.foldr_cons]
    rcases List.mem_cons.mp hmem with h | h
    · subst h
      exact readTrait_none pers t _ hmiss
    · rw [ih h]
      exact readTrait_acc_none pers n

/-- A key absent from the base dictionary stays absent through the
trait-by-trait merge loop: the loop only assigns keys already present. -/
theorem dictLookup_mergePersonality_none (upd : List (String × ℕ)) :
    ∀ (base : List (String × ℕ)) (k : String), dictLookup base k = none →
      dictLookup (mergePersonality base upd) k = none := by
  induction upd with
  | nil => intro base k h; exact h
  | cons kv rest ih =>
    intro base k h
    obtain ⟨k0, v0⟩ := kv
    have hstep : mergePersonality base ((k0, v0) :: rest)
        = mergePersonality
            (if (dictLookup base k0).isSome then dictSet base k0 v0 else base)
            rest := rfl
    rw [hstep]
    apply ih
    by_cases h0 : (dictLookup base k0).isSome
    · rw [if_pos h0]
      by_cases hk : k0 = k
      · subst hk
        rw [h] at h0
        simp at h0
      · rw [dictLookup_dictSet_ne _ _ _ _ hk]
        exact h
    · rw [if_neg h0]
      exact h

/-- Claim C10: a provided personality dictionary replaces the default one
wholesale, so a missing trait key stays missing through the merge loop and
building `formatted_config` raises a `KeyError` during construction. -/
theorem c10_missing_trait (p : List (String × ℕ)) (t : String)
    (ht : t ∈ traitNames) (hmiss : dictLookup p t = none) :
    dictLookup (agentPersonality (some p)) t = none ∧
    formattedConfigTraits (agentPersonality (some p)) = none := by
  have hnone : dictLookup (agentPersonality (some p)) t = none :=
    dictLookup_mergePersonality_none p p t hmiss
  exact ⟨hnone, foldr_readTrait_eq_none _ t traitNames ht hnone⟩

/-- Claim C10, witness: a personality dictionary holding only "patience"
loses the remaining five traits and construction fails on
"talkativeness". -/
theorem c10_missing_trait_witness :
    dictLookup (agentPersonality (some [("patience", 1)])) "talkativeness"
      = none ∧
    formattedConfigTraits (agentPersonality (some [("patience", 1)])) = none :=
  c10_missing_trait [("patience", 1)] "talkativeness" (by decide) (by decide)

end Agent
